import Mathlib

/-!
Verification of the Pending Request Broker of `human_mcp_server.py`.

The broker consists of two global dicts (`pending_requests`,
`completed_responses`), the Flask handlers `get_requests` and
`submit_response`, and the async task `handle_call_tool`.

Embedding: the two dicts become association lists over `String` keys.
`handle_call_tool` (one instance per tool call) and `submit_response`
(one instance per HTTP answer submission) become small-step state
machines whose steps are interleaved by an explicit schedule.  The
Flask handler runs in a different OS thread from the asyncio loop, so
under CPython's GIL the two interleave at bytecode granularity; each
step of the model below is a contiguous run of operations that CPython
executes atomically in all the interleavings the model exhibits.  The
whole of `submit_response` is modelled as at most two atomic steps
(the membership check, then the write/delete/return), which grants the
code at least as much atomicity as CPython does, so every divergent
behaviour exhibited below is a behaviour of the real program.

Time: one step of the waiting loop corresponds to `await asyncio.sleep(1)`,
i.e. one time-unit (a second); the deadline `max_wait = 300` elapses when
300 sleeps have completed.
-/

/-- Lookup in an association list (the model of Python `d[k]` / `k in d`). -/
def lookupA {α : Type} : List (String × α) → String → Option α
  | [], _ => none
  | (k, v) :: t, key => if k = key then some v else lookupA t key

/-- Update/insert into an association list (the model of Python `d[k] = v`:
an existing key keeps its position, a new key is appended). -/
def insertA {α : Type} : List (String × α) → String → α → List (String × α)
  | [], key, v => [(key, v)]
  | (k, w) :: t, key, v => if k = key then (key, v) :: t else (k, w) :: insertA t key v

/-- Deletion from an association list (the model of Python `del d[k]`). -/
def eraseA {α : Type} : List (String × α) → String → List (String × α)
  | [], _ => []
  | (k, w) :: t, key => if k = key then eraseA t key else (k, w) :: eraseA t key

theorem lookupA_insertA_self {α : Type} (l : List (String × α)) (k : String) (v : α) :
    lookupA (insertA l k v) k = some v := by
  induction l with
  | nil => simp [insertA, lookupA]
  | cons p t ih =>
    obtain ⟨k', v'⟩ := p
    by_cases h : k' = k
    · simp [insertA, h, lookupA]
    · simp [insertA, h, lookupA, ih]

theorem lookupA_insertA_ne {α : Type} (l : List (String × α)) (k k' : String) (v : α)
    (h : k ≠ k') : lookupA (insertA l k v) k' = lookupA l k' := by
  induction l with
  | nil => simp [insertA, lookupA, h]
  | cons p t ih =>
    obtain ⟨k'', v''⟩ := p
    by_cases h2 : k'' = k
    · subst h2
      simp [insertA, lookupA, h]
    · simp [insertA, h2, lookupA]
      by_cases h3 : k'' = k'
      · simp [h3]
      · simp [h3, ih]

theorem lookupA_eraseA_self {α : Type} (l : List (String × α)) (k : String) :
    lookupA (eraseA l k) k = none := by
  induction l with
  | nil => simp [eraseA, lookupA]
  | cons p t ih =>
    obtain ⟨k', v'⟩ := p
    by_cases h : k' = k
    · simp [eraseA, h, ih]
    · simp [eraseA, h, lookupA, ih]

theorem lookupA_eraseA_ne {α : Type} (l : List (String × α)) (k k' : String)
    (h : k ≠ k') : lookupA (eraseA l k) k' = lookupA l k' := by
  induction l with
  | nil => simp [eraseA, lookupA]
  | cons p t ih =>
    obtain ⟨k'', v''⟩ := p
    by_cases h2 : k'' = k
    · subst h2
      simp [eraseA, lookupA, h, Ne.symm h, ih]
    · simp [eraseA, h2, lookupA]
      by_cases h3 : k'' = k'
      · simp [h3]
      · simp [h3, ih]

/-- Positional lookup in a list of tasks. -/
def getIdx {α : Type} : List α → Nat → Option α
  | [], _ => none
  | a :: _, 0 => some a
  | _ :: t, n + 1 => getIdx t n

/-- Positional update in a list of tasks. -/
def setIdx {α : Type} : List α → Nat → α → List α
  | [], _, _ => []
  | _ :: t, 0, b => b :: t
  | a :: t, n + 1, b => a :: setIdx t n b

theorem getIdx_setIdx_self {α : Type} (l : List α) (i : Nat) (a b : α)
    (h : getIdx l i = some a) : getIdx (setIdx l i b) i = some b := by
  induction l generalizing i with
  | nil => simp [getIdx] at h
  | cons x t ih =>
    cases i with
    | zero => simp [getIdx, setIdx]
    | succ n => simp [getIdx, setIdx] at h ⊢; exact ih n h

theorem getIdx_setIdx_ne {α : Type} (l : List α) (i j : Nat) (b : α)
    (h : i ≠ j) : getIdx (setIdx l i b) j = getIdx l j := by
  induction l generalizing i j with
  | nil => simp [setIdx]
  | cons x t ih =>
    cases i with
    | zero =>
      cases j with
      | zero => exact absurd rfl h
      | succ m => simp [getIdx, setIdx]
    | succ n =>
      cases j with
      | zero => simp [getIdx, setIdx]
      | succ m =>
        simp [getIdx, setIdx]
        exact ih n m (fun hnm => h (by rw [hnm]))

theorem setIdx_setIdx {α : Type} (l : List α) (i : Nat) (a b : α) :
    setIdx (setIdx l i a) i b = setIdx l i b := by
  induction l generalizing i with
  | nil => simp [setIdx]
  | cons x t ih =>
    cases i with
    | zero => simp [setIdx]
    | succ n => simp [setIdx, ih]

theorem setIdx_same {α : Type} (l : List α) (i : Nat) (a : α)
    (h : getIdx l i = some a) : setIdx l i a = l := by
  induction l generalizing i with
  | nil => simp [setIdx]
  | cons x t ih =>
    cases i with
    | zero => simp [getIdx] at h; simp [setIdx, h]
    | succ n => simp [getIdx] at h; simp [setIdx, ih n h]

/-- An entry of `pending_requests` (src lines 573-577):
`{'tool_name': name, 'arguments': arguments, 'timestamp': ...}`.
Arguments are opaque to the broker; they are modelled as string pairs,
and the ISO timestamp string as a `Nat`. -/
structure RequestEntry where
  tool_name : String
  arguments : List (String × String)
  timestamp : Nat
deriving DecidableEq, Repr

/-- An entry of `completed_responses` (src lines 486-489):
`{'response': response_text, 'is_error': is_error}`. -/
structure AnswerData where
  response : String
  is_error : Bool
deriving DecidableEq, Repr

/-- The two global dicts of the broker (src lines 26-27). -/
structure BrokerState where
  pending : List (String × RequestEntry)
  completed : List (String × AnswerData)
deriving DecidableEq, Repr

/-- The Flask handler `submit_response` (src lines 478-493) run as one
atomic step: reads `request_id`, `response` and `is_error` (defaulting to
`False` when the field is absent, hence `Option Bool`); if the id is in
`pending_requests` it records the answer in `completed_responses`, deletes
the pending entry and returns success `true`; otherwise it returns
`false` (the `{'success': False, 'error': 'Request not found'}` reply). -/
def submit_response (s : BrokerState) (request_id : String)
    (response_text : String) (is_error : Option Bool) : BrokerState × Bool :=
  if (lookupA s.pending request_id).isSome then
    ({ pending := eraseA s.pending request_id,
       completed :=
         insertA s.completed request_id ⟨response_text, is_error.getD false⟩ }, true)
  else
    (s, false)

/-- The Flask handler `get_requests` (src lines 474-476): returns the
current `pending_requests` dict. -/
def get_requests (s : BrokerState) : List (String × RequestEntry) := s.pending

/-- The deadline of `handle_call_tool` (src line 582): `max_wait = 300`. -/
def max_wait : Nat := 300

/-- The message of the timeout exception raised at src line 605. -/
def timeoutMessage : String :=
  "Request timed out - no human response received within 5 minutes"

/-- The terminal outcome of a `handle_call_tool` invocation: a returned
`TextContent` (success) or a raised `Exception` message (failure). -/
inductive Outcome where
  | success (text : String)
  | failure (message : String)
deriving DecidableEq, Repr

/-- Program counter of a `handle_call_tool` task (src lines 566-605).
`start`: about to insert into `pending_requests` (line 573);
`loopCheck`: about to evaluate the `while` condition (line 585);
`checkCompleted`: loop exited, about to run the check at line 590;
`timeoutCleanup`: about to run the cleanup at lines 603-605;
`done`: returned or raised. -/
inductive TaskPC where
  | start
  | loopCheck
  | checkCompleted
  | timeoutCleanup
  | done (outcome : Outcome)
deriving DecidableEq, Repr

/-- One `handle_call_tool` invocation: its generated `request_id`
(src line 570, a fresh uuid4), the call's name/arguments, the time of
submission, the `waited` counter and the program counter. -/
structure SubmitTask where
  request_id : String
  tool_name : String
  arguments : List (String × String)
  timestamp : Nat
  waited : Nat
  pc : TaskPC
deriving DecidableEq, Repr

/-- One atomic step of a `handle_call_tool` task (src lines 566-605).
A `loopCheck` step that keeps looping is the condition evaluation plus
`await asyncio.sleep(1); waited += 1`; everything any single step does
runs without an intervening await, and the separate steps mark the
points where the Flask thread can interleave. -/
def taskStep (s : BrokerState) (t : SubmitTask) : BrokerState × SubmitTask :=
  match t.pc with
  | .start =>
      ({ s with pending :=
           insertA s.pending t.request_id ⟨t.tool_name, t.arguments, t.timestamp⟩ },
       { t with pc := .loopCheck, waited := 0 })
  | .loopCheck =>
      match lookupA s.completed t.request_id with
      | some _ => (s, { t with pc := .checkCompleted })
      | none =>
          if t.waited < max_wait then
            (s, { t with waited := t.waited + 1 })
          else
            (s, { t with pc := .checkCompleted })
  | .checkCompleted =>
      match lookupA s.completed t.request_id with
      | some rd =>
          ({ s with completed := eraseA s.completed t.request_id },
           { t with pc :=
               .done (if rd.is_error then .failure rd.response else .success rd.response) })
      | none => (s, { t with pc := .timeoutCleanup })
  | .timeoutCleanup =>
      (match lookupA s.pending t.request_id with
       | some _ => { s with pending := eraseA s.pending t.request_id }
       | none => s,
       { t with pc := .done (.failure timeoutMessage) })
  | .done _ => (s, t)

/-- Program counter of a `submit_response` HTTP handler invocation.
`start`: about to evaluate `request_id in pending_requests` (line 485);
`commit`: the check succeeded, about to write `completed_responses`,
delete the pending entry and reply success (lines 486-491);
`done b`: replied, with `b` the `success` field of the JSON reply. -/
inductive AnswerPC where
  | start
  | commit
  | done (success : Bool)
deriving DecidableEq, Repr

/-- One `submit_response` invocation: the POSTed JSON fields (with
`is_error` optional, src line 483: `data.get('is_error', False)`) and
the handler's program counter. -/
structure AnswerTask where
  request_id : String
  response_text : String
  is_error : Option Bool
  pc : AnswerPC
deriving DecidableEq, Repr

/-- One atomic step of a `submit_response` handler (src lines 478-493). -/
def answerStep (s : BrokerState) (a : AnswerTask) : BrokerState × AnswerTask :=
  match a.pc with
  | .start =>
      match lookupA s.pending a.request_id with
      | some _ => (s, { a with pc := .commit })
      | none => (s, { a with pc := .done false })
  | .commit =>
      ({ pending := eraseA s.pending a.request_id,
         completed :=
           insertA s.completed a.request_id ⟨a.response_text, a.is_error.getD false⟩ },
       { a with pc := .done true })
  | .done _ => (s, a)

/-- A scheduler label: which task or answer handler takes the next step. -/
inductive Label where
  | task (i : Nat)
  | answer (j : Nat)
deriving DecidableEq, Repr

/-- A configuration of the whole system: the shared dicts, the in-flight
`handle_call_tool` tasks and the in-flight `submit_response` handlers. -/
structure Config where
  shared : BrokerState
  tasks : List SubmitTask
  answers : List AnswerTask
deriving DecidableEq, Repr

/-- One step of the interleaved system, as chosen by the scheduler.
A label naming a nonexistent task is a stutter. -/
def stepC (c : Config) (l : Label) : Config :=
  match l with
  | .task i =>
      match getIdx c.tasks i with
      | some t =>
          let r := taskStep c.shared t
          { c with shared := r.1, tasks := setIdx c.tasks i r.2 }
      | none => c
  | .answer j =>
      match getIdx c.answers j with
      | some a =>
          let r := answerStep c.shared a
          { c with shared := r.1, answers := setIdx c.answers j r.2 }
      | none => c

/-- Run the system under an explicit schedule. -/
def run (c : Config) : List Label → Config
  | [] => c
  | l :: ls => run (stepC c l) ls

theorem run_append (c : Config) (ls ls' : List Label) :
    run c (ls ++ ls') = run (run c ls) ls' := by
  induction ls generalizing c with
  | nil => rfl
  | cons l t ih => simp [run, ih]

theorem run_sleeps (k : Nat) : ∀ (w : Nat) (c : Config) (i : Nat)
    (rid nm : String) (args : List (String × String)) (ts : Nat),
    getIdx c.tasks i = some ⟨rid, nm, args, ts, w, .loopCheck⟩ →
    lookupA c.shared.completed rid = none →
    w + k ≤ 300 →
    run c (List.replicate k (Label.task i)) =
      { c with tasks := setIdx c.tasks i ⟨rid, nm, args, ts, w + k, .loopCheck⟩ } := by
  induction k with
  | zero =>
    intro w c i rid nm args ts hget _ _
    rw [List.replicate_zero, run, Nat.add_zero, setIdx_same c.tasks i _ hget]
  | succ k ih =>
    intro w c i rid nm args ts hget hcomp hle
    have hlt : w < max_wait := by unfold max_wait; omega
    rw [List.replicate_succ, run]
    have hstep : stepC c (Label.task i) =
        { c with tasks := setIdx c.tasks i ⟨rid, nm, args, ts, w + 1, .loopCheck⟩ } := by
      simp [stepC, hget, taskStep, hcomp, hlt]
    rw [hstep]
    have hrec := ih (w + 1)
      { c with tasks := setIdx c.tasks i ⟨rid, nm, args, ts, w + 1, .loopCheck⟩ }
      i rid nm args ts (getIdx_setIdx_self _ _ _ _ hget) (by simpa using hcomp)
      (by omega)
    rw [hrec]
    have harith : w + 1 + k = w + (k + 1) := by omega
    simp [setIdx_setIdx, harith]

/-- Initial configuration of the single-call answer scenario: one fresh
`handle_call_tool` invocation (generated id `id`, tool `nm`, arguments
`args`) and two `submit_response` invocations for the same id, the first
carrying `(text, ie)` and the second `(text2, ie2)`. -/
def scenarioInit (id nm : String) (args : List (String × String)) (ts : Nat)
    (text : String) (ie : Option Bool) (text2 : String) (ie2 : Option Bool) : Config :=
  { shared := ⟨[], []⟩,
    tasks := [⟨id, nm, args, ts, 0, .start⟩],
    answers := [⟨id, text, ie, .start⟩, ⟨id, text2, ie2, .start⟩] }

/-- Schedule of the answer scenario: the call registers itself, sleeps
`k` times, then the first answer is submitted (and accepted), the call
wakes and consumes it, and the second answer is submitted afterwards. -/
def scenarioSched (k : Nat) : List Label :=
  Label.task 0 :: (List.replicate k (Label.task 0) ++
    [Label.answer 0, Label.answer 0, Label.task 0, Label.task 0, Label.answer 1])

/-- End-to-end behaviour of the answer scenario: an answer `(text, ie)`
submitted while the call is still waiting (after `k ≤ 300` sleeps) is
accepted (`done true`), the call resolves to the outcome determined by
`ie` with exactly the submitted text, the registry and answer store end
empty, and the second answer for the same id is rejected (`done false`). -/
theorem scenario_answer (id nm : String) (args : List (String × String)) (ts : Nat)
    (text : String) (ie : Option Bool) (text2 : String) (ie2 : Option Bool)
    (k : Nat) (hk : k ≤ 300) :
    run (scenarioInit id nm args ts text ie text2 ie2) (scenarioSched k) =
      ⟨⟨[], []⟩,
       [⟨id, nm, args, ts, k,
         .done (if ie.getD false then .failure text else .success text)⟩],
       [⟨id, text, ie, .done true⟩, ⟨id, text2, ie2, .done false⟩]⟩ := by
  rw [scenarioSched, run]
  have e1 : stepC (scenarioInit id nm args ts text ie text2 ie2) (Label.task 0) =
      ⟨⟨[(id, ⟨nm, args, ts⟩)], []⟩, [⟨id, nm, args, ts, 0, .loopCheck⟩],
       [⟨id, text, ie, .start⟩, ⟨id, text2, ie2, .start⟩]⟩ := by
    simp [scenarioInit, stepC, getIdx, taskStep, setIdx, insertA]
  rw [e1, run_append]
  rw [run_sleeps k 0 _ 0 id nm args ts (by simp [getIdx]) (by simp [lookupA]) (by omega)]
  simp [run, stepC, getIdx, setIdx, answerStep, taskStep, lookupA, eraseA, insertA]

/-- Number of occurrences of a label in a schedule. -/
def countL (l : Label) : List Label → Nat
  | [] => 0
  | x :: t => (if x = l then 1 else 0) + countL l t

/-- Bound on the number of steps a `handle_call_tool` task can still take
before reaching a terminal outcome. -/
def taskMeasure (t : SubmitTask) : Nat :=
  match t.pc with
  | .start => 304
  | .loopCheck => 3 + (300 - t.waited)
  | .checkCompleted => 2
  | .timeoutCleanup => 1
  | .done _ => 0

theorem taskMeasure_zero (t : SubmitTask) (h : taskMeasure t = 0) :
    ∃ o, t.pc = .done o := by
  cases hpc : t.pc with
  | start => simp [taskMeasure, hpc] at h
  | loopCheck => simp [taskMeasure, hpc] at h
  | checkCompleted => simp [taskMeasure, hpc] at h
  | timeoutCleanup => simp [taskMeasure, hpc] at h
  | done o => exact ⟨o, rfl⟩

theorem taskStep_done (s : BrokerState) (t : SubmitTask) (o : Outcome)
    (h : t.pc = .done o) : taskStep s t = (s, t) := by
  unfold taskStep
  rw [h]

theorem taskStep_measure (s : BrokerState) (t : SubmitTask) :
    (∃ o, t.pc = .done o) ∨ taskMeasure (taskStep s t).2 < taskMeasure t := by
  cases hpc : t.pc with
  | start =>
    right
    simp only [taskStep, taskMeasure, hpc]
    omega
  | loopCheck =>
    right
    cases hc : lookupA s.completed t.request_id with
    | some _ =>
      simp only [taskStep, taskMeasure, hpc, hc]
      omega
    | none =>
      by_cases hw : t.waited < max_wait
      · have hw2 : t.waited < 300 := hw
        simp only [taskStep, taskMeasure, hpc, hc, hw, if_true]
        omega
      · simp only [taskStep, taskMeasure, hpc, hc, hw, if_false]
        omega
  | checkCompleted =>
    right
    cases hc : lookupA s.completed t.request_id with
    | some _ =>
      simp only [taskStep, taskMeasure, hpc, hc]
      omega
    | none =>
      simp only [taskStep, taskMeasure, hpc, hc]
      omega
  | timeoutCleanup =>
    right
    simp only [taskStep, taskMeasure, hpc]
    omega
  | done o => exact Or.inl ⟨o, rfl⟩

theorem taskStep_waited (s : BrokerState) (t : SubmitTask) (h : t.waited ≤ 300) :
    (taskStep s t).2.waited ≤ 300 := by
  cases hpc : t.pc with
  | start => simp [taskStep, hpc]
  | loopCheck =>
    cases hc : lookupA s.completed t.request_id with
    | some _ => simpa [taskStep, hpc, hc] using h
    | none =>
      by_cases hw : t.waited < max_wait
      · have hw2 : t.waited < 300 := hw
        simp only [taskStep, hpc, hc, hw, if_true]
        omega
      · simpa [taskStep, hpc, hc, hw] using h
  | checkCompleted =>
    cases hc : lookupA s.completed t.request_id with
    | some _ => simpa [taskStep, hpc, hc] using h
    | none => simpa [taskStep, hpc, hc] using h
  | timeoutCleanup => simpa [taskStep, hpc] using h
  | done o => simpa [taskStep, hpc] using h

theorem stepC_tasks_other (c : Config) (l : Label) (i : Nat)
    (h : l ≠ Label.task i) : getIdx (stepC c l).tasks i = getIdx c.tasks i := by
  cases l with
  | task j =>
    have hij : j ≠ i := fun hji => h (by rw [hji])
    cases hj : getIdx c.tasks j with
    | some t => simp [stepC, hj, getIdx_setIdx_ne c.tasks j i _ hij]
    | none => simp [stepC, hj]
  | answer j =>
    cases hj : getIdx c.answers j with
    | some a => simp [stepC, hj]
    | none => simp [stepC, hj]

theorem run_reaches_done : ∀ (ls : List Label) (c : Config) (i : Nat) (t : SubmitTask),
    getIdx c.tasks i = some t → t.waited ≤ 300 →
    taskMeasure t ≤ countL (Label.task i) ls →
    ∃ t', getIdx (run c ls).tasks i = some t' ∧
      (∃ o, t'.pc = .done o) ∧ t'.waited ≤ 300 := by
  intro ls
  induction ls with
  | nil =>
    intro c i t hget hw hcount
    simp [countL] at hcount
    obtain ⟨o, ho⟩ := taskMeasure_zero t hcount
    exact ⟨t, hget, ⟨o, ho⟩, hw⟩
  | cons l ls ih =>
    intro c i t hget hw hcount
    by_cases hl : l = Label.task i
    · subst hl
      rw [run]
      have hstep : stepC c (Label.task i) =
          { c with shared := (taskStep c.shared t).1,
                   tasks := setIdx c.tasks i (taskStep c.shared t).2 } := by
        simp [stepC, hget]
      rw [hstep]
      have hget2 : getIdx (setIdx c.tasks i (taskStep c.shared t).2) i =
          some (taskStep c.shared t).2 := getIdx_setIdx_self _ _ _ _ hget
      have hw2 := taskStep_waited c.shared t hw
      rcases taskStep_measure c.shared t with ⟨o, ho⟩ | hlt
      · rw [taskStep_done c.shared t o ho] at hget2 hw2 ⊢
        refine ih _ i t hget2 hw ?_
        have : taskMeasure t = 0 := by unfold taskMeasure; rw [ho]
        omega
      · refine ih _ i _ hget2 hw2 ?_
        simp [countL] at hcount
        omega
    · rw [run]
      have hget2 : getIdx (stepC c l).tasks i = some t := by
        rw [stepC_tasks_other c l i hl]; exact hget
      refine ih _ i t hget2 hw ?_
      simp [countL, hl] at hcount
      exact hcount

theorem run_done_stable : ∀ (ls : List Label) (c : Config) (i : Nat) (t : SubmitTask)
    (o : Outcome), getIdx c.tasks i = some t → t.pc = .done o →
    getIdx (run c ls).tasks i = some t := by
  intro ls
  induction ls with
  | nil => intro c i t o hget _; exact hget
  | cons l ls ih =>
    intro c i t o hget hpc
    rw [run]
    by_cases hl : l = Label.task i
    · subst hl
      have hstep : stepC c (Label.task i) = { c with tasks := setIdx c.tasks i t } := by
        simp [stepC, hget, taskStep_done c.shared t o hpc]
      rw [hstep]
      exact ih _ i t o (getIdx_setIdx_self _ _ _ _ hget) hpc
    · have hget2 : getIdx (stepC c l).tasks i = some t := by
        rw [stepC_tasks_other c l i hl]; exact hget
      exact ih _ i t o hget2 hpc

theorem getIdx_none_of_le {α : Type} (l : List α) (n : Nat) (h : l.length ≤ n) :
    getIdx l n = none := by
  induction l generalizing n with
  | nil => simp [getIdx]
  | cons x t ih =>
    cases n with
    | zero => simp at h
    | succ m => simp at h; simp [getIdx, ih m h]

theorem setIdx_length {α : Type} (l : List α) (i : Nat) (b : α) :
    (setIdx l i b).length = l.length := by
  induction l generalizing i with
  | nil => simp [setIdx]
  | cons x t ih =>
    cases i with
    | zero => simp [setIdx]
    | succ n => simp [setIdx, ih]

theorem taskStep_request_id (s : BrokerState) (t : SubmitTask) :
    (taskStep s t).2.request_id = t.request_id := by
  cases hpc : t.pc with
  | start => simp [taskStep, hpc]
  | loopCheck =>
    cases hc : lookupA s.completed t.request_id with
    | some _ => simp [taskStep, hpc, hc]
    | none =>
      by_cases hw : t.waited < max_wait
      · simp [taskStep, hpc, hc, hw]
      · simp [taskStep, hpc, hc, hw]
  | checkCompleted =>
    cases hc : lookupA s.completed t.request_id with
    | some _ => simp [taskStep, hpc, hc]
    | none => simp [taskStep, hpc, hc]
  | timeoutCleanup => simp [taskStep, hpc]
  | done o => simp [taskStep, hpc]

theorem answerStep_request_id (s : BrokerState) (a : AnswerTask) :
    (answerStep s a).2.request_id = a.request_id := by
  cases hpc : a.pc with
  | start =>
    cases hp : lookupA s.pending a.request_id with
    | some _ => simp [answerStep, hpc, hp]
    | none => simp [answerStep, hpc, hp]
  | commit => simp [answerStep, hpc]
  | done b => simp [answerStep, hpc]

/-- A step of a `handle_call_tool` task touches only the dict keys equal to
its own request id. -/
theorem taskStep_shared_other (s : BrokerState) (t : SubmitTask) (key : String)
    (h : key ≠ t.request_id) :
    lookupA (taskStep s t).1.pending key = lookupA s.pending key ∧
    lookupA (taskStep s t).1.completed key = lookupA s.completed key := by
  have hins := lookupA_insertA_ne s.pending t.request_id key
  have hep := lookupA_eraseA_ne s.pending t.request_id key (Ne.symm h)
  have hec := lookupA_eraseA_ne s.completed t.request_id key (Ne.symm h)
  cases hpc : t.pc with
  | start =>
    constructor
    · simp [taskStep, hpc, hins _ (Ne.symm h)]
    · simp [taskStep, hpc]
  | loopCheck =>
    cases hc : lookupA s.completed t.request_id with
    | some _ => simp [taskStep, hpc, hc]
    | none =>
      by_cases hw : t.waited < max_wait
      · simp [taskStep, hpc, hc, hw]
      · simp [taskStep, hpc, hc, hw]
  | checkCompleted =>
    cases hc : lookupA s.completed t.request_id with
    | some _ => constructor <;> simp [taskStep, hpc, hc, hec]
    | none => simp [taskStep, hpc, hc]
  | timeoutCleanup =>
    cases hp : lookupA s.pending t.request_id with
    | some _ => constructor <;> simp [taskStep, hpc, hp, hep]
    | none => simp [taskStep, hpc, hp]
  | done o => simp [taskStep, hpc]

/-- A step of a `submit_response` handler touches only the dict keys equal
to its own request id. -/
theorem answerStep_shared_other (s : BrokerState) (a : AnswerTask) (key : String)
    (h : key ≠ a.request_id) :
    lookupA (answerStep s a).1.pending key = lookupA s.pending key ∧
    lookupA (answerStep s a).1.completed key = lookupA s.completed key := by
  have hins := fun v => lookupA_insertA_ne s.completed a.request_id key v (Ne.symm h)
  have hep := lookupA_eraseA_ne s.pending a.request_id key (Ne.symm h)
  cases hpc : a.pc with
  | start =>
    cases hp : lookupA s.pending a.request_id with
    | some _ => simp [answerStep, hpc, hp]
    | none => simp [answerStep, hpc, hp]
  | commit => constructor <;> simp [answerStep, hpc, hep, hins _]
  | done b => simp [answerStep, hpc]

/-- Everything in the system that concerns one request id: its registry
entry, its answer-store slot, its `handle_call_tool` task (index 0) and
its `submit_response` handler (index 0). -/
structure IdView where
  pendingEntry : Option RequestEntry
  completedAnswer : Option AnswerData
  task : Option SubmitTask
  answer : Option AnswerTask
deriving DecidableEq, Repr

/-- Projection of a configuration onto the id handled by task 0 and
answer handler 0. -/
def projA (c : Config) (id : String) : IdView :=
  ⟨lookupA c.shared.pending id, lookupA c.shared.completed id,
   getIdx c.tasks 0, getIdx c.answers 0⟩

/-- Labels that operate on the id of task 0 / answer handler 0. -/
def isA : Label → Bool
  | .task 0 => true
  | .answer 0 => true
  | _ => false

/-- A two-call configuration: task 0 and answer handler 0 carry id `idA`,
task 1 and answer handler 1 carry id `idB`, and there is nothing else. -/
def ShapeAB (c : Config) (idA idB : String) : Prop :=
  (∃ tA, getIdx c.tasks 0 = some tA ∧ tA.request_id = idA) ∧
  (∃ tB, getIdx c.tasks 1 = some tB ∧ tB.request_id = idB) ∧
  c.tasks.length = 2 ∧
  (∃ aA, getIdx c.answers 0 = some aA ∧ aA.request_id = idA) ∧
  (∃ aB, getIdx c.answers 1 = some aB ∧ aB.request_id = idB) ∧
  c.answers.length = 2

/-- The action of an own-id step on the id view alone: the mirror image of
`taskStep` and `answerStep`, reading and writing nothing but the view. -/
def localStepA (v : IdView) : Label → IdView
  | .task 0 =>
    match v.task with
    | none => v
    | some t =>
      match t.pc with
      | .start =>
          { v with pendingEntry := some ⟨t.tool_name, t.arguments, t.timestamp⟩,
                   task := some { t with pc := .loopCheck, waited := 0 } }
      | .loopCheck =>
          match v.completedAnswer with
          | some _ => { v with task := some { t with pc := .checkCompleted } }
          | none =>
              if t.waited < max_wait then
                { v with task := some { t with waited := t.waited + 1 } }
              else
                { v with task := some { t with pc := .checkCompleted } }
      | .checkCompleted =>
          match v.completedAnswer with
          | some rd =>
              let o : Outcome :=
                if rd.is_error then .failure rd.response else .success rd.response
              { v with completedAnswer := none, task := some { t with pc := .done o } }
          | none => { v with task := some { t with pc := .timeoutCleanup } }
      | .timeoutCleanup =>
          { v with pendingEntry := none,
                   task := some { t with pc := .done (.failure timeoutMessage) } }
      | .done _ => v
  | .answer 0 =>
    match v.answer with
    | none => v
    | some a =>
      match a.pc with
      | .start =>
          match v.pendingEntry with
          | some _ => { v with answer := some { a with pc := .commit } }
          | none => { v with answer := some { a with pc := .done false } }
      | .commit =>
          { v with pendingEntry := none,
                   completedAnswer := some ⟨a.response_text, a.is_error.getD false⟩,
                   answer := some { a with pc := .done true } }
      | .done _ => v
  | _ => v

/-- Run the local id semantics over a schedule. -/
def localRunA (v : IdView) : List Label → IdView
  | [] => v
  | l :: ls => localRunA (localStepA v l) ls

theorem ShapeAB_step (c : Config) (idA idB : String) (h : ShapeAB c idA idB)
    (l : Label) : ShapeAB (stepC c l) idA idB := by
  obtain ⟨⟨tA, htA, htAid⟩, ⟨tB, htB, htBid⟩, hlen,
    ⟨aA, haA, haAid⟩, ⟨aB, haB, haBid⟩, halen⟩ := h
  cases l with
  | task j =>
    cases hj : getIdx c.tasks j with
    | none =>
      have hid : stepC c (Label.task j) = c := by simp [stepC, hj]
      rw [hid]
      exact ⟨⟨tA, htA, htAid⟩, ⟨tB, htB, htBid⟩, hlen,
        ⟨aA, haA, haAid⟩, ⟨aB, haB, haBid⟩, halen⟩
    | some t =>
      have hstep : stepC c (Label.task j) =
          { c with shared := (taskStep c.shared t).1,
                   tasks := setIdx c.tasks j (taskStep c.shared t).2 } := by
        simp [stepC, hj]
      rw [hstep]
      refine ⟨?_, ?_, ?_, ⟨aA, haA, haAid⟩, ⟨aB, haB, haBid⟩, halen⟩
      · by_cases hj0 : j = 0
        · subst hj0
          rw [htA] at hj
          injection hj with hj
          subst hj
          exact ⟨(taskStep c.shared tA).2, getIdx_setIdx_self _ _ _ _ htA,
            by rw [taskStep_request_id]; exact htAid⟩
        · exact ⟨tA, by rw [getIdx_setIdx_ne c.tasks j 0 _ hj0]; exact htA, htAid⟩
      · by_cases hj1 : j = 1
        · subst hj1
          rw [htB] at hj
          injection hj with hj
          subst hj
          exact ⟨(taskStep c.shared tB).2, getIdx_setIdx_self _ _ _ _ htB,
            by rw [taskStep_request_id]; exact htBid⟩
        · exact ⟨tB, by rw [getIdx_setIdx_ne c.tasks j 1 _ hj1]; exact htB, htBid⟩
      · simp [setIdx_length, hlen]
  | answer j =>
    cases hj : getIdx c.answers j with
    | none =>
      have hid : stepC c (Label.answer j) = c := by simp [stepC, hj]
      rw [hid]
      exact ⟨⟨tA, htA, htAid⟩, ⟨tB, htB, htBid⟩, hlen,
        ⟨aA, haA, haAid⟩, ⟨aB, haB, haBid⟩, halen⟩
    | some a =>
      have hstep : stepC c (Label.answer j) =
          { c with shared := (answerStep c.shared a).1,
                   answers := setIdx c.answers j (answerStep c.shared a).2 } := by
        simp [stepC, hj]
      rw [hstep]
      refine ⟨⟨tA, htA, htAid⟩, ⟨tB, htB, htBid⟩, hlen, ?_, ?_, ?_⟩
      · by_cases hj0 : j = 0
        · subst hj0
          rw [haA] at hj
          injection hj with hj
          subst hj
          exact ⟨(answerStep c.shared aA).2, getIdx_setIdx_self _ _ _ _ haA,
            by rw [answerStep_request_id]; exact haAid⟩
        · exact ⟨aA, by rw [getIdx_setIdx_ne c.answers j 0 _ hj0]; exact haA, haAid⟩
      · by_cases hj1 : j = 1
        · subst hj1
          rw [haB] at hj
          injection hj with hj
          subst hj
          exact ⟨(answerStep c.shared aB).2, getIdx_setIdx_self _ _ _ _ haB,
            by rw [answerStep_request_id]; exact haBid⟩
        · exact ⟨aB, by rw [getIdx_setIdx_ne c.answers j 1 _ hj1]; exact haB, haBid⟩
      · simp [setIdx_length, halen]

theorem projA_step_nonA (c : Config) (idA idB : String) (hne : idA ≠ idB)
    (h : ShapeAB c idA idB) (l : Label) (hl : isA l = false) :
    projA (stepC c l) idA = projA c idA := by
  obtain ⟨⟨tA, htA, htAid⟩, ⟨tB, htB, htBid⟩, hlen,
    ⟨aA, haA, haAid⟩, ⟨aB, haB, haBid⟩, halen⟩ := h
  cases l with
  | task j =>
    cases j with
    | zero => simp [isA] at hl
    | succ j1 =>
      cases j1 with
      | zero =>
        have hkey : idA ≠ tB.request_id := by rw [htBid]; exact hne
        have hsh := taskStep_shared_other c.shared tB idA hkey
        simp [stepC, htB, projA, hsh.1, hsh.2,
          getIdx_setIdx_ne c.tasks 1 0 _ (by omega)]
      | succ j2 =>
        have hnone : getIdx c.tasks (j2 + 2) = none :=
          getIdx_none_of_le _ _ (by omega)
        simp [stepC, hnone]
  | answer j =>
    cases j with
    | zero => simp [isA] at hl
    | succ j1 =>
      cases j1 with
      | zero =>
        have hkey : idA ≠ aB.request_id := by rw [haBid]; exact hne
        have hsh := answerStep_shared_other c.shared aB idA hkey
        simp [stepC, haB, projA, hsh.1, hsh.2,
          getIdx_setIdx_ne c.answers 1 0 _ (by omega)]
      | succ j2 =>
        have hnone : getIdx c.answers (j2 + 2) = none :=
          getIdx_none_of_le _ _ (by omega)
        simp [stepC, hnone]

theorem projA_step_A (c : Config) (idA idB : String)
    (h : ShapeAB c idA idB) (l : Label) (hl : isA l = true) :
    projA (stepC c l) idA = localStepA (projA c idA) l := by
  obtain ⟨⟨tA, htA, htAid⟩, ⟨tB, htB, htBid⟩, hlen,
    ⟨aA, haA, haAid⟩, ⟨aB, haB, haBid⟩, halen⟩ := h
  cases l with
  | task j =>
    cases j with
    | succ j1 => simp [isA] at hl
    | zero =>
      subst htAid
      have hstep : stepC c (Label.task 0) =
          { c with shared := (taskStep c.shared tA).1,
                   tasks := setIdx c.tasks 0 (taskStep c.shared tA).2 } := by
        simp [stepC, htA]
      rw [hstep]
      cases hpc : tA.pc with
      | start =>
        simp [projA, localStepA, htA, taskStep, hpc, lookupA_insertA_self,
          getIdx_setIdx_self _ _ _ _ htA]
      | loopCheck =>
        cases hc : lookupA c.shared.completed tA.request_id with
        | some rd =>
          simp [projA, localStepA, htA, taskStep, hpc, hc,
            getIdx_setIdx_self _ _ _ _ htA]
        | none =>
          by_cases hw : tA.waited < max_wait
          · simp [projA, localStepA, htA, taskStep, hpc, hc, hw,
              getIdx_setIdx_self _ _ _ _ htA]
          · simp [projA, localStepA, htA, taskStep, hpc, hc, hw,
              getIdx_setIdx_self _ _ _ _ htA]
      | checkCompleted =>
        cases hc : lookupA c.shared.completed tA.request_id with
        | some rd =>
          simp [projA, localStepA, htA, taskStep, hpc, hc, lookupA_eraseA_self,
            getIdx_setIdx_self _ _ _ _ htA]
        | none =>
          simp [projA, localStepA, htA, taskStep, hpc, hc,
            getIdx_setIdx_self _ _ _ _ htA]
      | timeoutCleanup =>
        cases hp : lookupA c.shared.pending tA.request_id with
        | some e =>
          simp [projA, localStepA, htA, taskStep, hpc, hp, lookupA_eraseA_self,
            getIdx_setIdx_self _ _ _ _ htA]
        | none =>
          simp [projA, localStepA, htA, taskStep, hpc, hp,
            getIdx_setIdx_self _ _ _ _ htA]
      | done o =>
        simp [projA, localStepA, htA, taskStep, hpc, setIdx_same c.tasks 0 tA htA,
          getIdx_setIdx_self _ _ _ _ htA]
  | answer j =>
    cases j with
    | succ j1 => simp [isA] at hl
    | zero =>
      subst haAid
      have hstep : stepC c (Label.answer 0) =
          { c with shared := (answerStep c.shared aA).1,
                   answers := setIdx c.answers 0 (answerStep c.shared aA).2 } := by
        simp [stepC, haA]
      rw [hstep]
      cases hpc : aA.pc with
      | start =>
        cases hp : lookupA c.shared.pending aA.request_id with
        | some e =>
          simp [projA, localStepA, haA, answerStep, hpc, hp,
            getIdx_setIdx_self _ _ _ _ haA]
        | none =>
          simp [projA, localStepA, haA, answerStep, hpc, hp,
            getIdx_setIdx_self _ _ _ _ haA]
      | commit =>
        simp [projA, localStepA, haA, answerStep, hpc, lookupA_eraseA_self,
          lookupA_insertA_self, getIdx_setIdx_self _ _ _ _ haA]
      | done b =>
        simp [projA, localStepA, haA, answerStep, hpc, setIdx_same c.answers 0 aA haA,
          getIdx_setIdx_self _ _ _ _ haA]

theorem projA_run (ls : List Label) : ∀ (c : Config) (idA idB : String), idA ≠ idB →
    ShapeAB c idA idB →
    projA (run c ls) idA = localRunA (projA c idA) (ls.filter isA) := by
  induction ls with
  | nil => intro c idA idB hne h; rfl
  | cons l ls ih =>
    intro c idA idB hne h
    have h2 := ShapeAB_step c idA idB h l
    rw [run]
    by_cases hl : isA l = true
    · have e1 : List.filter isA (l :: ls) = l :: List.filter isA ls := by
        simp [List.filter_cons, hl]
      rw [e1, localRunA, ← projA_step_A c idA idB h l hl]
      exact ih (stepC c l) idA idB hne h2
    · have hl2 : isA l = false := by
        cases hisa : isA l with
        | false => rfl
        | true => exact absurd hisa hl
      have e1 : List.filter isA (l :: ls) = List.filter isA ls := by
        simp [List.filter_cons, hl2]
      rw [e1, ← projA_step_nonA c idA idB hne h l hl2]
      exact ih (stepC c l) idA idB hne h2

set_option maxRecDepth 20000

/-- A single `ask_human` call (generated id `r1`) together with one
operator answer `("yes", is_error=false)` for it. -/
def raceInit : Config :=
  { shared := ⟨[], []⟩,
    tasks := [⟨"r1", "ask_human", [("question", "Proceed?")], 0, 0, .start⟩],
    answers := [⟨"r1", "yes", some false, .start⟩] }

/-- The call registers itself, sleeps the full 300 times, and the loop
condition observes the elapsed deadline: the task is now past its wait
loop (`checkCompleted`), with the answer not yet submitted. -/
def deadlineSched : List Label :=
  Label.task 0 :: (List.replicate 300 (Label.task 0) ++ [Label.task 0])

/-- Claim C1: answer acceptance and removal of the pending entry are
claimed to be a single atomic step with the timeout, so that when an
answer and the deadline expiry race on the same id exactly one of them
wins and the loser observes the entry as already gone.  The code
violates this: in the schedule below the deadline elapses (300 sleeps),
the task observes no answer and commits to the timeout path, then the
operator's answer is still accepted (`done true` — the entry was not
gone), yet the submit call resolves with the timeout failure and the
accepted answer is left orphaned in `completed_responses` forever. -/
theorem answer_accepted_but_timeout_raised :
    run raceInit (deadlineSched ++
        [Label.task 0, Label.answer 0, Label.answer 0, Label.task 0]) =
      ⟨⟨[], [("r1", ⟨"yes", false⟩)]⟩,
       [⟨"r1", "ask_human", [("question", "Proceed?")], 0, 300,
         .done (.failure timeoutMessage)⟩],
       [⟨"r1", "yes", some false, .done true⟩]⟩ := by
  decide

/-- Claim C2: an answer arriving after the deadline has elapsed is
claimed to be rejected as not-found and never applied.  The code
violates this: after the deadline elapses (the wait loop has observed
`waited = 300` with no answer) the entry is still in the registry, and
an answer submitted at that point is accepted (`done true`) and then
applied — the submit call returns `Success "yes"` instead of the
timeout failure. -/
theorem late_answer_applied :
    (run raceInit deadlineSched).tasks =
      [⟨"r1", "ask_human", [("question", "Proceed?")], 0, 300, .checkCompleted⟩] ∧
    (run raceInit deadlineSched).answers = [⟨"r1", "yes", some false, .start⟩] ∧
    run (run raceInit deadlineSched) [Label.answer 0, Label.answer 0, Label.task 0] =
      ⟨⟨[], []⟩,
       [⟨"r1", "ask_human", [("question", "Proceed?")], 0, 300,
         .done (.success "yes")⟩],
       [⟨"r1", "yes", some false, .done true⟩]⟩ := by
  decide

/-- Claim C3: an answer `(text, is_error=false)` submitted exactly once
while the id is still Pending (after `k < 300` sleeps, before the
deadline) makes the submit call return `Success text`, and a second
answer for the same id is rejected (`done false`, the not-found reply). -/
theorem answer_once_success (id nm : String) (args : List (String × String))
    (ts : Nat) (text text2 : String) (ie2 : Option Bool) (k : Nat)
    (hk : k < 300) :
    run (scenarioInit id nm args ts text (some false) text2 ie2) (scenarioSched k) =
      ⟨⟨[], []⟩,
       [⟨id, nm, args, ts, k, .done (.success text)⟩],
       [⟨id, text, some false, .done true⟩, ⟨id, text2, ie2, .done false⟩]⟩ := by
  have h := scenario_answer id nm args ts text (some false) text2 ie2 k (le_of_lt hk)
  simpa using h

/-- Witness for `answer_once_success` at `k = 0` and concrete strings. -/
theorem answer_once_success_witness :
    0 < 300 ∧
    run (scenarioInit "r1" "ask_human" [("question", "Proceed?")] 0 "yes"
        (some false) "again" none) (scenarioSched 0) =
      ⟨⟨[], []⟩,
       [⟨"r1", "ask_human", [("question", "Proceed?")], 0, 0, .done (.success "yes")⟩],
       [⟨"r1", "yes", some false, .done true⟩, ⟨"r1", "again", none, .done false⟩]⟩ :=
  ⟨by decide,
   answer_once_success "r1" "ask_human" [("question", "Proceed?")] 0 "yes"
     "again" none 0 (by decide)⟩

/-- Claim C4: an answer `(text, is_error=true)` submitted while the id is
Pending makes the submit call fail with exactly the submitted text as the
message (the raised `Exception(response_data['response'])`). -/
theorem answer_error_propagates (id nm : String) (args : List (String × String))
    (ts : Nat) (text text2 : String) (ie2 : Option Bool) (k : Nat)
    (hk : k < 300) :
    run (scenarioInit id nm args ts text (some true) text2 ie2) (scenarioSched k) =
      ⟨⟨[], []⟩,
       [⟨id, nm, args, ts, k, .done (.failure text)⟩],
       [⟨id, text, some true, .done true⟩, ⟨id, text2, ie2, .done false⟩]⟩ := by
  have h := scenario_answer id nm args ts text (some true) text2 ie2 k (le_of_lt hk)
  simpa using h

/-- Witness for `answer_error_propagates` at `k = 3` and concrete strings. -/
theorem answer_error_propagates_witness :
    3 < 300 ∧
    run (scenarioInit "r2" "human_search" [("query", "Q")] 0 "no luck"
        (some true) "late" (some false)) (scenarioSched 3) =
      ⟨⟨[], []⟩,
       [⟨"r2", "human_search", [("query", "Q")], 0, 3, .done (.failure "no luck")⟩],
       [⟨"r2", "no luck", some true, .done true⟩,
        ⟨"r2", "late", some false, .done false⟩]⟩ :=
  ⟨by decide,
   answer_error_propagates "r2" "human_search" [("query", "Q")] 0 "no luck"
     "late" (some false) 3 (by decide)⟩

/-- A single `human_decision` call with no operator answer at all. -/
def timeoutOnlyInit : Config :=
  { shared := ⟨[], []⟩,
    tasks := [⟨"r1", "human_decision",
      [("decision_needed", "X"), ("options", "A,B")], 0, 0, .start⟩],
    answers := [] }

/-- Schedule of a full unanswered run: register, 300 sleeps, loop exit,
the line-590 check, and the timeout cleanup. -/
def fullTimeoutSched : List Label :=
  Label.task 0 :: (List.replicate 300 (Label.task 0) ++
    [Label.task 0, Label.task 0, Label.task 0])

/-- Claim C5 as stated is false on the code: the timeout failure message
is the string raised at src line 605, which is not the message
`"timed out waiting for human response"` the claim requires. -/
theorem timeout_message_differs :
    run timeoutOnlyInit fullTimeoutSched =
      ⟨⟨[], []⟩,
       [⟨"r1", "human_decision", [("decision_needed", "X"), ("options", "A,B")],
         0, 300, .done (.failure timeoutMessage)⟩], []⟩ ∧
    timeoutMessage ≠ "timed out waiting for human response" := by
  decide

/-- Claim C5 (amended): when the deadline elapses with no answer, the
entry is removed from the registry and the submit call fails with the
message `"Request timed out - no human response received within 5
minutes"`. -/
theorem timeout_outcome (id nm : String) (args : List (String × String)) (ts : Nat) :
    run ⟨⟨[], []⟩, [⟨id, nm, args, ts, 0, .start⟩], []⟩ fullTimeoutSched =
      ⟨⟨[], []⟩, [⟨id, nm, args, ts, 300, .done (.failure timeoutMessage)⟩], []⟩ := by
  have e1 : stepC ⟨⟨[], []⟩, [⟨id, nm, args, ts, 0, .start⟩], []⟩ (Label.task 0) =
      ⟨⟨[(id, ⟨nm, args, ts⟩)], []⟩, [⟨id, nm, args, ts, 0, .loopCheck⟩], []⟩ := by
    simp [stepC, getIdx, taskStep, setIdx, insertA]
  rw [fullTimeoutSched, run, e1, run_append]
  rw [run_sleeps 300 0 _ 0 id nm args ts (by simp [getIdx]) (by simp [lookupA]) (by omega)]
  simp [run, stepC, getIdx, setIdx, taskStep, lookupA, eraseA, max_wait]

/-- Claim C6: every submit call reaches exactly one terminal outcome —
within 304 of its own steps, hence within the 300 time-unit deadline
(`waited` never exceeds 300) — and once reached, the outcome never
changes under any further scheduling. -/
theorem submit_call_terminates (c : Config) (i : Nat) (id nm : String)
    (args : List (String × String)) (ts : Nat)
    (hget : getIdx c.tasks i = some ⟨id, nm, args, ts, 0, .start⟩)
    (ls : List Label) (hcount : 304 ≤ countL (Label.task i) ls) :
    ∃ t2, getIdx (run c ls).tasks i = some t2 ∧ (∃ o, t2.pc = .done o) ∧
      t2.waited ≤ 300 ∧
      ∀ ls2, getIdx (run (run c ls) ls2).tasks i = some t2 := by
  obtain ⟨t2, hget2, ⟨o, ho⟩, hw2⟩ :=
    run_reaches_done ls c i _ hget (by simp) (by simpa [taskMeasure] using hcount)
  exact ⟨t2, hget2, ⟨o, ho⟩, hw2, fun ls2 => run_done_stable ls2 _ i t2 o hget2 ho⟩

/-- Initial configuration for the `submit_call_terminates` witness. -/
def c6Init : Config :=
  ⟨⟨[], []⟩, [⟨"r1", "ask_human", [("question", "Proceed?")], 0, 0, .start⟩], []⟩

/-- Schedule for the `submit_call_terminates` witness. -/
def c6Sched : List Label := List.replicate 304 (Label.task 0)

/-- Witness for `submit_call_terminates` on a concrete unanswered call. -/
theorem submit_call_terminates_witness :
    (getIdx c6Init.tasks 0 =
        some ⟨"r1", "ask_human", [("question", "Proceed?")], 0, 0, .start⟩ ∧
      304 ≤ countL (Label.task 0) c6Sched) ∧
    (∃ t2, getIdx (run c6Init c6Sched).tasks 0 = some t2 ∧
      (∃ o, t2.pc = .done o) ∧ t2.waited ≤ 300 ∧
      ∀ ls2, getIdx (run (run c6Init c6Sched) ls2).tasks 0 = some t2) :=
  ⟨⟨by decide, by decide⟩,
   submit_call_terminates c6Init 0 "r1" "ask_human" [("question", "Proceed?")] 0
     (by decide) c6Sched (by decide)⟩

/-- Claim C7: `list_pending` is claimed never to include an id after it
has been resolved (answered or timed out).  The code violates this for
the timed-out case: below, the deadline has elapsed (`waited = 300`, no
answer exists anywhere, the task has even observed the empty answer
store and committed to the timeout path), yet `get_requests` still
lists the entry; it disappears only one scheduling step later, when the
task performs its cleanup and raises the timeout failure. -/
theorem timed_out_entry_still_listed :
    (run timeoutOnlyInit (deadlineSched ++ [Label.task 0])).tasks =
      [⟨"r1", "human_decision", [("decision_needed", "X"), ("options", "A,B")],
        0, 300, .timeoutCleanup⟩] ∧
    get_requests (run timeoutOnlyInit (deadlineSched ++ [Label.task 0])).shared =
      [("r1", ⟨"human_decision", [("decision_needed", "X"), ("options", "A,B")], 0⟩)] ∧
    run (run timeoutOnlyInit (deadlineSched ++ [Label.task 0])) [Label.task 0] =
      ⟨⟨[], []⟩,
       [⟨"r1", "human_decision", [("decision_needed", "X"), ("options", "A,B")],
         0, 300, .done (.failure timeoutMessage)⟩], []⟩ := by
  decide

/-- Claim C8: `submit_response` replies not-found exactly when the id has
no entry in `pending_requests` (the registry is the single source of
truth for what is Pending), and in that case it leaves the whole broker
state — every other in-flight request included — unchanged. -/
theorem answer_not_found_iff (s : BrokerState) (request_id text : String)
    (ie : Option Bool) :
    ((submit_response s request_id text ie).2 = false ↔
      lookupA s.pending request_id = none) ∧
    (lookupA s.pending request_id = none →
      (submit_response s request_id text ie).1 = s) := by
  unfold submit_response
  cases hp : lookupA s.pending request_id with
  | some e => simp [hp]
  | none => simp [hp]

/-- Witness for `answer_not_found_iff` on an id that never existed. -/
theorem answer_not_found_iff_witness :
    (submit_response ⟨[], []⟩ "ghost" "text" none).2 = false ∧
    (submit_response ⟨[], []⟩ "ghost" "text" none).1 = ⟨[], []⟩ :=
  ⟨(answer_not_found_iff ⟨[], []⟩ "ghost" "text" none).1.mpr rfl,
   (answer_not_found_iff ⟨[], []⟩ "ghost" "text" none).2 rfl⟩

/-- Claim C9: in a system of two submit calls with distinct generated
ids (and one answer handler per id), everything concerning the first id
— its registry entry, its answer slot, its task state and hence its
eventual outcome — is the same under any two schedules that agree on
the steps targeting that id; steps targeting the other id never change
it. -/
theorem outcome_depends_only_on_own_id (c : Config) (idA idB : String)
    (hne : idA ≠ idB) (hshape : ShapeAB c idA idB) (ls ls2 : List Label)
    (hfilt : ls.filter isA = ls2.filter isA) :
    projA (run c ls) idA = projA (run c ls2) idA := by
  rw [projA_run ls c idA idB hne hshape, projA_run ls2 c idA idB hne hshape, hfilt]

/-- Two fresh calls `a1`, `b1` with one answer handler each. -/
def c9Init : Config :=
  ⟨⟨[], []⟩,
   [⟨"a1", "ask_human", [("question", "A?")], 0, 0, .start⟩,
    ⟨"b1", "human_search", [("query", "B")], 0, 0, .start⟩],
   [⟨"a1", "yes", some false, .start⟩, ⟨"b1", "stop", some true, .start⟩]⟩

/-- A schedule interleaving operations on `b1` among the `a1` steps. -/
def c9SchedInterleaved : List Label :=
  [Label.task 0, Label.task 1, Label.answer 0, Label.answer 1, Label.answer 0,
   Label.task 1, Label.task 0, Label.task 0, Label.answer 1, Label.task 1]

/-- The same schedule with every `b1` operation removed. -/
def c9SchedPure : List Label :=
  [Label.task 0, Label.answer 0, Label.answer 0, Label.task 0, Label.task 0]

/-- Witness for `outcome_depends_only_on_own_id` on concrete schedules. -/
theorem outcome_depends_only_on_own_id_witness :
    ("a1" : String) ≠ "b1" ∧
    c9SchedInterleaved.filter isA = c9SchedPure.filter isA ∧
    projA (run c9Init c9SchedInterleaved) "a1" = projA (run c9Init c9SchedPure) "a1" :=
  ⟨by decide, by decide,
   outcome_depends_only_on_own_id c9Init "a1" "b1" (by decide)
     ⟨⟨_, rfl, rfl⟩, ⟨_, rfl, rfl⟩, rfl, ⟨_, rfl, rfl⟩, ⟨_, rfl, rfl⟩, rfl⟩
     c9SchedInterleaved c9SchedPure (by decide)⟩

/-- Claim C10: an answer submission whose JSON payload omits `is_error`
is treated exactly like one with `is_error = false` (src line 483,
`data.get('is_error', False)`), so the corresponding submit call
returns `Success` with the submitted text rather than a failure. -/
theorem omitted_is_error_defaults_false (s : BrokerState) (id nm : String)
    (args : List (String × String)) (ts : Nat) (text text2 : String)
    (ie2 : Option Bool) (k : Nat) (hk : k < 300) :
    submit_response s id text none = submit_response s id text (some false) ∧
    run (scenarioInit id nm args ts text none text2 ie2) (scenarioSched k) =
      ⟨⟨[], []⟩,
       [⟨id, nm, args, ts, k, .done (.success text)⟩],
       [⟨id, text, none, .done true⟩, ⟨id, text2, ie2, .done false⟩]⟩ := by
  constructor
  · rfl
  · have h := scenario_answer id nm args ts text none text2 ie2 k (le_of_lt hk)
    simpa using h

/-- Witness for `omitted_is_error_defaults_false` at `k = 1`. -/
theorem omitted_is_error_defaults_false_witness :
    1 < 300 ∧
    (submit_response ⟨[], []⟩ "r3" "fine" none =
        submit_response ⟨[], []⟩ "r3" "fine" (some false) ∧
      run (scenarioInit "r3" "ask_human" [("question", "OK?")] 0 "fine" none
          "later" none) (scenarioSched 1) =
        ⟨⟨[], []⟩,
         [⟨"r3", "ask_human", [("question", "OK?")], 0, 1, .done (.success "fine")⟩],
         [⟨"r3", "fine", none, .done true⟩, ⟨"r3", "later", none, .done false⟩]⟩) :=
  ⟨by decide,
   omitted_is_error_defaults_false ⟨[], []⟩ "r3" "ask_human"
     [("question", "OK?")] 0 "fine" "later" none 1 (by decide)⟩
